import Mathlib

/-!
Verification of the SlippiStats replay parser and stats engine.

This file shallowly embeds the parts of the code base that the checked
claims are about:

* `slippistats/game.py` — `Game._add_frame` (frame aggregation with
  rollback replacement);
* `slippistats/event.py` — `Start.SlippiVersion.__ge__`, `End._parse`,
  `Frame.Port.Data.Post._parse`, `Frame.Start._parse`, `Frame.Item._parse`;
* `slippistats/parse.py` — the per-event frame folding handlers
  (`_pre_frame`, `_post_frame`, `_item_frame`, `_start_frame`, `_end_frame`);
* `slippistats/stats/stats_computer.py` — `StatsComputer.wavedash_compute`;
* `slippistats/stats/stat_types.py` — `TakeHitData._find_valid_sdi`;
* `slippistats/stats/common.py` — `get_angle`, `get_post_di_angle`;
* `slippistats/stats/computer.py` — `ComputerBase.get_player`.

Machine integers are modelled as `Nat`/`Int`; byte streams as `List Nat`;
Python exceptions as an explicit error type threaded through `Except`.
IEEE-754 float arithmetic in the DI-angle computation is modelled over `ℝ`
(the standard real-number idealization); everywhere else floats are carried
as raw 32-bit patterns and never computed with, which is exact.
-/

namespace SlippiStats

/-- Python exceptions that the embedded code can raise. -/
inductive PyErr where
  /-- `IndexError` from an out-of-range list subscript. -/
  | indexError
  /-- `ValueError`, e.g. an enum constructor applied to a value outside its domain. -/
  | valueError
  /-- `UnboundLocalError`: a local variable referenced before assignment. -/
  | unboundLocal
  /-- `struct.error` from `struct.unpack` on a too-short buffer. -/
  | structError
  /-- `AttributeError`, e.g. calling `.upper()` on an `int`. -/
  | attributeError
  /-- `slippistats.stats.computer.IdentifierError`. -/
  | identifierError
deriving DecidableEq, Repr

/-- A byte buffer: each entry is one byte (0–255). -/
abbrev Bytes := List Nat

/-- Read `n` bytes from the front of a buffer as one big-endian unsigned
integer, as the `struct.Struct(">…").unpack(stream.read(n))` helpers in
`util.py` do; `none` models the `struct.error` raised when fewer than `n`
bytes remain. -/
def readBE (n : Nat) (s : Bytes) : Option (Nat × Bytes) :=
  if n ≤ s.length then some ((s.take n).foldl (fun a b => a * 256 + b) 0, s.drop n)
  else none

/-- Python list subscript `l[i]`: negative indices wrap around once;
anything still out of range raises `IndexError`. -/
def pyGet (l : List α) (i : Int) : Except PyErr α :=
  let j : Int := if i < 0 then i + l.length else i
  if h : 0 ≤ j ∧ j.toNat < l.length then .ok (l.get ⟨j.toNat, h.2⟩)
  else .error .indexError

/-- Python list item assignment `l[i] = a`, with the same index semantics
as `pyGet`. -/
def pySet (l : List α) (i : Int) (a : α) : Except PyErr (List α) :=
  let j : Int := if i < 0 then i + l.length else i
  if 0 ≤ j ∧ j.toNat < l.length then .ok (l.set j.toNat a)
  else .error .indexError

/-- Signed interpretation of one byte (`struct.unpack(">b", …)`). -/
def int8OfByte (b : Nat) : Int :=
  if b < 128 then (b : Int) else (b : Int) - 256

/-! ## Recorder version comparison (`Start.SlippiVersion.__ge__`) -/

/-- `Start.SlippiVersion` from `event.py`: major/minor/revision triple
(the fourth `build` byte is discarded by the parser). -/
structure SlippiVersion where
  major : Nat
  minor : Nat
  revision : Nat
deriving DecidableEq, Repr

/-- `Start.SlippiVersion.__ge__` (event.py, version-to-version branch):

    self.major > other.major
    or (self.major == other.major and self.minor > other.minor)
    or (self.minor == other.minor and self.revision >= other.revision)

Note the third disjunct tests only the minor components for equality. -/
def slippiVersionGe (a b : SlippiVersion) : Bool :=
  decide (a.major > b.major)
    || (decide (a.major = b.major) && decide (a.minor > b.minor))
    || (decide (a.minor = b.minor) && decide (a.revision ≥ b.revision))

/-- Modelled from the spec: "Total ordering by lexicographic tuple
compare" — ≥ on version triples ordered lexicographically. -/
def specLexVersionGe (a b : SlippiVersion) : Bool :=
  decide (a.major > b.major
    ∨ (a.major = b.major
        ∧ (a.minor > b.minor ∨ (a.minor = b.minor ∧ a.revision ≥ b.revision))))

/-! ## SDI input extraction (`TakeHitData._find_valid_sdi`)

Joystick regions are the integer values of the `JoystickRegion` enum:
`DEAD_ZONE = -1`, `UP = 0`, `UP_RIGHT = 1`, `RIGHT = 2`, `DOWN_RIGHT = 3`,
`DOWN = 4`, `DOWN_LEFT = 5`, `LEFT = 6`, `UP_LEFT = 7`. -/

/-- One iteration of the loop body of `TakeHitData._find_valid_sdi`
(stat_types.py): the contribution of the pair (previous region, current
region) to `sdi_inputs`. Mirrors the chain of `continue`s:
current dead-zone and unchanged regions contribute nothing; leaving the
dead zone counts; a cardinal (even value) to anything counts; a diagonal
(odd value) to another diagonal counts; a diagonal to a far cardinal
(absolute difference in `[3, 7)`) counts. -/
def sdiContrib (prev curr : Int) : List Int :=
  if curr = -1 then []
  else if curr = prev then []
  else if prev = -1 then [curr]
  else if prev % 2 = 0 then [curr]
  else if curr % 2 = 1 then [curr]
  else if 3 ≤ |curr - prev| ∧ |curr - prev| < 7 then [curr]
  else []

/-- Tail of the `_find_valid_sdi` loop: fold `sdiContrib` over the list,
each element paired with its predecessor. -/
def goSdi : Int → List Int → List Int
  | _, [] => []
  | prev, c :: t => sdiContrib prev c ++ goSdi c t

/-- `TakeHitData._find_valid_sdi`: the `sdi_inputs` list produced from
`stick_regions_during_hitlag` (index 0 is skipped, every later index is
paired with its predecessor). -/
def findValidSdi : List Int → List Int
  | [] => []
  | h :: t => goSdi h t

/-! ## Player lookup (`ComputerBase.get_player`) -/

/-- An identifier accepted by `get_player`: either a connect-code string
or a port number (`int` / `Port`, which is an `IntEnum`). -/
inductive Identifier where
  | istr (s : String)
  | iint (n : Int)
deriving DecidableEq, Repr

/-- The fields of `stats/computer.py`'s `Player` that `get_player`
inspects. -/
structure CompPlayer where
  connectCode : Option String
  port : Int
deriving DecidableEq, Repr

/-- `ComputerBase.get_player` (stats/computer.py). The function matches on
`identifier.upper()`: for a string this is the upper-cased string (used
only for the type dispatch — the loop then compares `player.connect_code
== identifier` against the *original*, case-sensitively); for an `int` or
`Port` the attribute access `.upper` itself raises `AttributeError`
before any case is tried. -/
def getPlayer (players : List CompPlayer) : Identifier → Except PyErr CompPlayer
  | .iint _ => .error .attributeError
  | .istr s =>
    match players.find? (fun p => p.connectCode == some s) with
    | some p => .ok p
    | none => .error .identifierError

/-- Two-player list for exercising `get_player`. -/
def demoPlayers : List CompPlayer :=
  [⟨some "ABC#123", 0⟩, ⟨some "XYZ#456", 1⟩]

/-! ## Game-end record (`End._parse`) -/

/-- The `End` record of `event.py`: game-end method byte, optional LRAS
initiator port, optional per-port placements. The method byte is carried
raw; its domain check (`End.Method`) happens at the final constructor
call. -/
structure EndRec where
  method : Nat
  lrasInitiator : Option Nat
  playerPlacements : Option (List Nat)
deriving DecidableEq, Repr

/-- `struct.unpack` lifted into the parser's error monad: a short read is
a `struct.error`. -/
def rd (n : Nat) (s : Bytes) : Except PyErr (Nat × Bytes) :=
  match readBE n s with
  | some r => .ok r
  | none => .error .structError

/-- `End._parse` (event.py). Reads the method byte, then tries the v2.0.0
LRAS byte (`lras if lras < 4 else None`, `None` on short read) and the
v3.13.0 placements block (four bytes, `None` on short read). The final
`cls.Method(method)` call raises `ValueError` for a method byte outside
`{0, 1, 2, 3, 7}`. -/
def endParse (payload : Bytes) : Except PyErr EndRec := do
  let (method, r1) ← rd 1 payload
  let (lrasInitiator, r2) : Option Nat × Bytes :=
    match readBE 1 r1 with
    | some (lras, r) => (if lras < 4 then some lras else none, r)
    | none => (none, r1)
  let playerPlacements : Option (List Nat) :=
    match readBE 1 r2 with
    | none => none
    | some (p1, s1) =>
      match readBE 1 s1 with
      | none => none
      | some (p2, s2) =>
        match readBE 1 s2 with
        | none => none
        | some (p3, s3) =>
          match readBE 1 s3 with
          | none => none
          | some (p4, _) => some [p1, p2, p3, p4]
  if method = 0 ∨ method = 1 ∨ method = 2 ∨ method = 3 ∨ method = 7 then
    pure ⟨method, lrasInitiator, playerPlacements⟩
  else
    .error .valueError

/-! ## Post-frame record (`Frame.Port.Data.Post._parse`)

Floats are carried as their raw big-endian 32-bit patterns; `_parse` never
computes with them, so this is exact. -/

/-- An (x, y) pair of raw 32-bit float patterns (`Position` / `Velocity`
objects built by `_parse`). -/
structure RawPair where
  x : Nat
  y : Nat
deriving DecidableEq, Repr

/-- The `Direction(…)` enum call on a decoded float: the float bit
patterns of 1.0, -1.0, 0.0 and -0.0 map to the `RIGHT`/`LEFT`/`DOWN`
members; any other value makes the enum constructor raise `ValueError`. -/
def dirOfBits (bits : Nat) : Option Int :=
  if bits = 0x3F800000 then some 1
  else if bits = 0xBF800000 then some (-1)
  else if bits = 0 ∨ bits = 0x80000000 then some 0
  else none

/-- The post-frame record built by `Frame.Port.Data.Post._parse`. Gated
fields default to `None`; `state` is kept as the raw value resolved by
`get_character_state` (an `IntEnum` with the same integer value). -/
structure PostRec where
  character : Nat
  state : Nat
  positionX : Nat
  positionY : Nat
  direction : Int
  damage : Nat
  shieldHealth : Nat
  stocksRemaining : Nat
  mostRecentHit : Nat
  lastHitBy : Option Nat
  comboCount : Nat
  stateAge : Option Nat := none
  flags : Option (List Nat) := none
  miscTimer : Option Nat := none
  isAirborne : Option Bool := none
  lastGroundId : Option Nat := none
  jumpsRemaining : Option Nat := none
  lCancel : Option Nat := none
  hurtboxStatus : Option Nat := none
  selfGroundSpeed : Option RawPair := none
  selfAirSpeed : Option RawPair := none
  knockbackSpeed : Option RawPair := none
  hitlagRemaining : Option Nat := none
  animationIndex : Option Nat := none
deriving DecidableEq, Repr

/-- The v2.0.0 block of `Post._parse`: five flag bytes (`Field1`–`Field5`
are `IntFlag`s, which accept any byte), misc timer, airborne bool, ground
id, jumps, L-cancel byte. `none` models the `struct.error` on a short
read, which the surrounding `except` catches. -/
def readBlock200 (s : Bytes) : Option (List Nat × Nat × Bool × Nat × Nat × Nat × Bytes) := do
  let (f1, s1) ← readBE 1 s
  let (f2, s2) ← readBE 1 s1
  let (f3, s3) ← readBE 1 s2
  let (f4, s4) ← readBE 1 s3
  let (f5, s5) ← readBE 1 s4
  let (miscTimer, s6) ← readBE 4 s5
  let (airborneByte, s7) ← readBE 1 s6
  let (groundId, s8) ← readBE 2 s7
  let (jumps, s9) ← readBE 1 s8
  let (lCancelByte, s10) ← readBE 1 s9
  some ([f1, f2, f3, f4, f5], miscTimer, airborneByte ≠ 0, groundId, jumps, lCancelByte, s10)

/-- The v3.5.0 block: air velocity, knockback velocity, and ground x
velocity (ground y is shared with air y). -/
def readBlock350 (s : Bytes) : Option (RawPair × RawPair × RawPair × Bytes) := do
  let (airX, s1) ← readBE 4 s
  let (airY, s2) ← readBE 4 s1
  let (kbX, s3) ← readBE 4 s2
  let (kbY, s4) ← readBE 4 s3
  let (groundX, s5) ← readBE 4 s4
  some (⟨airX, airY⟩, ⟨kbX, kbY⟩, ⟨groundX, airY⟩, s5)

/-- `Frame.Port.Data.Post._parse` (event.py). The fixed fields are read
first; a short read there is an uncaught `struct.error`. Each following
version-gated block is wrapped in `try/except struct.error` that returns
the partial record — except that the first (v0.2.0 / `state_age`) handler
itself evaluates the unassigned local `state_age`, raising
`UnboundLocalError` instead of returning. The `LCancel(…)` enum call
raises `ValueError` on a byte outside `{0, 1, 2}`. -/
def postParse (payload : Bytes) : Except PyErr PostRec := do
  let (character, s0) ← rd 1 payload
  let (state, s1) ← rd 2 s0
  let (posX, s2) ← rd 4 s1
  let (posY, s3) ← rd 4 s2
  let (dirBits, s4) ← rd 4 s3
  let direction ← match dirOfBits dirBits with
    | some d => Except.ok d
    | none => Except.error PyErr.valueError
  let (damage, s5) ← rd 4 s4
  let (shieldHealth, s6) ← rd 4 s5
  let (lastAttackLanded, s7) ← rd 1 s6
  let (comboCount, s8) ← rd 1 s7
  let (lastHitBy, s9) ← rd 1 s8
  let (stocks, s10) ← rd 1 s9
  let base : PostRec :=
    { character := character
      state := state
      positionX := posX
      positionY := posY
      direction := direction
      damage := damage
      shieldHealth := shieldHealth
      stocksRemaining := stocks
      mostRecentHit := lastAttackLanded
      lastHitBy := if lastHitBy < 4 then some lastHitBy else none
      comboCount := comboCount }
  match readBE 4 s10 with
  | none =>
    -- v0.2.0 short read: the `except` branch passes `state_age=state_age`
    -- with `state_age` never assigned.
    .error .unboundLocal
  | some (stateAge, s11) =>
    let base := { base with stateAge := some stateAge }
    match readBlock200 s11 with
    | none => .ok base
    | some (flags, miscTimer, airborne, groundId, jumps, lCancelByte, s12) =>
      if ¬(lCancelByte = 0 ∨ lCancelByte = 1 ∨ lCancelByte = 2) then
        .error .valueError
      else
        let base := { base with
          flags := some flags
          miscTimer := some miscTimer
          isAirborne := some airborne
          lastGroundId := some groundId
          jumpsRemaining := some jumps
          lCancel := some lCancelByte }
        match readBE 1 s12 with
        | none => .ok base
        | some (hurtbox, s13) =>
          let base := { base with hurtboxStatus := some hurtbox }
          match readBlock350 s13 with
          | none => .ok base
          | some (airSpeed, kbSpeed, groundSpeed, s14) =>
            let base := { base with
              selfAirSpeed := some airSpeed
              knockbackSpeed := some kbSpeed
              selfGroundSpeed := some groundSpeed }
            match readBE 4 s14 with
            | none => .ok base
            | some (hitlag, s15) =>
              let base := { base with hitlagRemaining := some hitlag }
              match readBE 4 s15 with
              | none => .ok base
              | some (animation, _) =>
                .ok { base with animationIndex := some animation }

/-- A FramePost payload holding exactly the eleven fixed fields (27
bytes) and nothing more — the shape of a pre-v0.2.0 replay. The direction
word is the bit pattern of 1.0. -/
def shortPostPayload : Bytes :=
  [0] ++ [0, 0] ++ [0, 0, 0, 0] ++ [0, 0, 0, 0] ++ [0x3F, 0x80, 0, 0]
    ++ [0, 0, 0, 0] ++ [0, 0, 0, 0] ++ [0] ++ [0] ++ [0] ++ [3]

/-! ## Frame reconstruction (`parse.py` frame handlers, `Frame` of `event.py`) -/

/-- `Frame.Start._parse`: one big-endian u32 random seed. -/
structure FrameStartRec where
  randomSeed : Nat
deriving DecidableEq, Repr

/-- `Frame.Start._parse` (event.py). -/
def frameStartParse (s : Bytes) : Except PyErr FrameStartRec := do
  let (seed, _) ← rd 4 s
  pure ⟨seed⟩

/-- The item record built by `Frame.Item._parse` (event.py): floats are
raw 32-bit patterns, the trailing five fields are version-gated. -/
structure ItemRec where
  type : Nat
  state : Nat
  facingDirection : Int
  velocity : RawPair
  position : RawPair
  damageTaken : Nat
  timer : Nat
  spawnId : Nat
  missileType : Option Nat
  turnipType : Option Nat
  isShotLaunched : Option Nat
  chargePower : Option Nat
  owner : Option Int
deriving DecidableEq, Repr

/-- `Frame.Item._parse` (event.py): fixed fields, then a `try` block for
the five version-gated trailing bytes (`None` on short read). The
`Direction(…)` call on the facing float and the `Port(…)` call on the
owner byte raise `ValueError` outside their domains; `try_enum` on
missile/turnip type is value-preserving and kept raw. -/
def itemParse (s : Bytes) : Except PyErr ItemRec := do
  let (ty, s0) ← rd 2 s
  let (st, s1) ← rd 1 s0
  let (dirBits, s2) ← rd 4 s1
  let facing ← match dirOfBits dirBits with
    | some d => Except.ok d
    | none => Except.error PyErr.valueError
  let (velX, s3) ← rd 4 s2
  let (velY, s4) ← rd 4 s3
  let (posX, s5) ← rd 4 s4
  let (posY, s6) ← rd 4 s5
  let (damageTaken, s7) ← rd 2 s6
  let (timer, s8) ← rd 4 s7
  let (spawnId, s9) ← rd 4 s8
  let trailing : Option (Nat × Nat × Nat × Nat × Nat) := do
    let (missile, t1) ← readBE 1 s9
    let (turnip, t2) ← readBE 1 t1
    let (shot, t3) ← readBE 1 t2
    let (charge, t4) ← readBE 1 t3
    let (ownerByte, _) ← readBE 1 t4
    some (missile, turnip, shot, charge, ownerByte)
  match trailing with
  | none =>
    pure ⟨ty, st, facing, ⟨velX, velY⟩, ⟨posX, posY⟩, damageTaken, timer, spawnId,
      none, none, none, none, none⟩
  | some (missile, turnip, shot, charge, ownerByte) =>
    let owner := int8OfByte ownerByte
    if ¬(owner = -1 ∨ owner = 0 ∨ owner = 1 ∨ owner = 2 ∨ owner = 3) then
      .error .valueError
    else
      pure ⟨ty, st, facing, ⟨velX, velY⟩, ⟨posX, posY⟩, damageTaken, timer, spawnId,
        some missile, some turnip, some shot, some charge, some owner⟩

/-- An element of a `Frame`'s `items` list. In the source this list is an
untyped Python list; the `_item_frame` handler appends `Frame.Item`
records and the `_start_frame` handler appends `Frame.Start` records. -/
inductive FrameItemEntry where
  | itemRec (r : ItemRec)
  | startRec (r : FrameStartRec)
deriving DecidableEq, Repr

/-- `Frame.Port.Data`: the lazily-parsed pre/post byte buffers
(`data._pre` / `data._post`); `Post._parse` is applied on first access. -/
structure PortCharData where
  pre : Option Bytes := none
  post : Option Bytes := none
deriving DecidableEq, Repr

/-- `Frame.Port`: leader data plus optional follower data. -/
structure PortFrame where
  leader : PortCharData
  follower : Option PortCharData
deriving DecidableEq, Repr

/-- `Frame` (event.py): index, four port slots, items, and the optional
start/end markers (`end` is a field-free `Frame.End`). -/
structure Frame where
  index : Int
  ports : List (Option PortFrame)
  items : List FrameItemEntry
  start : Option FrameStartRec
  ends : Option Unit
deriving DecidableEq, Repr

/-- `Frame.__init__`: four empty port slots, empty items, no markers. -/
def Frame.new (idx : Int) : Frame :=
  ⟨idx, [none, none, none, none], [], none, none⟩

/-- A frame-related event as identified by `parse.py`'s jump table:
frame index (plus port/follower for pre/post) and the raw payload. -/
inductive FrameEvt where
  | startEvt (frame : Int) (raw : Bytes)
  | preEvt (frame : Int) (port : Nat) (isFollower : Bool) (raw : Bytes)
  | postEvt (frame : Int) (port : Nat) (isFollower : Bool) (raw : Bytes)
  | itemEvt (frame : Int) (raw : Bytes)
  | endEvt (frame : Int) (raw : Bytes)
deriving DecidableEq, Repr

/-- The boundary prologue shared by every `_*_frame` handler in
`parse.py`: when the current frame exists and its index differs from the
event's, it is finalized and emitted, and a fresh frame is allocated. -/
def frameBoundary (cur : Option Frame) (idx : Int) (out : List Frame) :
    Frame × List Frame :=
  match cur with
  | some f => if f.index ≠ idx then (Frame.new idx, out ++ [f]) else (f, out)
  | none => (Frame.new idx, out)

/-- The port-slot manipulation shared by `_pre_frame` and `_post_frame`:
fetch `ports[port]` (allocating a `Frame.Port` when the slot is `None`),
pick the leader or the follower (allocating the follower when needed),
store the raw buffer, and write the slot back. `store` is the
`data._pre = …` or `data._post = …` assignment. -/
def setPortBuffer (f : Frame) (port : Nat) (isFollower : Bool)
    (store : PortCharData → PortCharData) : Except PyErr Frame := do
  let slot ← pyGet f.ports (port : Int)
  let base : PortFrame := match slot with
    | some p => p
    | none => ⟨{}, none⟩
  let updated : PortFrame :=
    if isFollower then
      let fol := base.follower.getD {}
      { base with follower := some (store fol) }
    else
      { base with leader := store base.leader }
  let ports ← pySet f.ports (port : Int) (some updated)
  pure { f with ports := ports }

/-- One step of `_parse_events`' frame folding: dispatch to the handler
for the event (`thing[event_code]` in parse.py) carrying the in-progress
frame and the frames emitted so far. Note that `_start_frame` parses the
FrameStart payload and *appends it to `items`*; `current_frame.start` is
never assigned. -/
def frameFoldStep (st : Option Frame × List Frame) (e : FrameEvt) :
    Except PyErr (Option Frame × List Frame) :=
  match e with
  | .startEvt idx raw =>
    let (f, out) := frameBoundary st.1 idx st.2
    do
      let r ← frameStartParse raw
      pure (some { f with items := f.items ++ [.startRec r] }, out)
  | .preEvt idx port fol raw =>
    let (f, out) := frameBoundary st.1 idx st.2
    do
      let fr ← setPortBuffer f port fol (fun d => { d with pre := some raw })
      pure (some fr, out)
  | .postEvt idx port fol raw =>
    let (f, out) := frameBoundary st.1 idx st.2
    do
      let fr ← setPortBuffer f port fol (fun d => { d with post := some raw })
      pure (some fr, out)
  | .itemEvt idx raw =>
    let (f, out) := frameBoundary st.1 idx st.2
    do
      let r ← itemParse raw
      pure (some { f with items := f.items ++ [.itemRec r] }, out)
  | .endEvt idx _raw =>
    let (f, out) := frameBoundary st.1 idx st.2
    pure (some { f with ends := some () }, out)

/-- The frame-folding part of `_parse_events`: fold every frame event,
then flush the final in-progress frame (`if current_frame: … finalize,
emit`). `_finalize` only freezes the Python lists into tuples, which is
the identity here. -/
def foldFrameEvents (es : List FrameEvt) : Except PyErr (List Frame) := do
  let (cur, out) ← es.foldlM frameFoldStep (none, [])
  match cur with
  | some f => pure (out ++ [f])
  | none => pure out

/-! ## Frame aggregation with rollbacks (`Game._add_frame`) -/

/-- `FIRST_FRAME_INDEX` from event.py. -/
def FIRST_FRAME_INDEX : Int := -123

/-- `Game._add_frame` (game.py):

    idx = frame.index - FIRST_FRAME_INDEX
    count = len(self.frames)
    if idx == count: append
    elif idx < count: self.frames[idx] = frame   # rollback
    else: raise ValueError('missing frames …')
-/
def addFrame (fs : List Frame) (f : Frame) : Except PyErr (List Frame) :=
  let idx : Int := f.index - FIRST_FRAME_INDEX
  if idx = fs.length then .ok (fs ++ [f])
  else if idx < fs.length then pySet fs idx f
  else .error .valueError

/-- Feeding a whole stream of reconstructed frames through
`Game._add_frame`, starting from the empty `frames` list built by
`Game.__init__`. -/
def foldAddFrames (es : List Frame) : Except PyErr (List Frame) :=
  es.foldlM addFrame []

/-- Shorthand for a reconstructed frame with a given index and items
payload (ports and markers empty), used for concrete streams. -/
def mkFrame (idx : Int) (seed : Nat) : Frame :=
  ⟨idx, [none, none, none, none], [.startRec ⟨seed⟩], none, none⟩

/-- Slot discipline of `Game.frames`: the frame stored at position `i`
has frame index `FIRST_FRAME_INDEX + i`. -/
def framesInv (fs : List Frame) : Prop :=
  ∀ i (h : i < fs.length), (fs[i]).index = FIRST_FRAME_INDEX + i

/-- Each stored frame is the **last** arrival with its index: slot `i`
holds the final element of the event stream whose frame index is
`FIRST_FRAME_INDEX + i`. -/
def canonical (es fs : List Frame) : Prop :=
  ∀ i (h : i < fs.length),
    (es.filter (fun e => e.index == FIRST_FRAME_INDEX + (i : Int))).getLast?
      = some (fs[i])

/-- Every frame index seen in the stream has a slot in `Game.frames`. -/
def coversAll (es fs : List Frame) : Prop :=
  ∀ e ∈ es, (e.index - FIRST_FRAME_INDEX).toNat < fs.length

/-- The `Game._add_frame` loop invariant relating the processed event
stream to the accumulated frames list. -/
def goodState (es fs : List Frame) : Prop :=
  framesInv fs ∧ canonical es fs ∧ coversAll es fs

/-- The rollback seed scenario: frame indices proceed
-123, -122, -121, -122, -121, -120, with fresh payloads on the re-issued
indices. -/
def rollbackStream : List Frame :=
  [mkFrame (-123) 0, mkFrame (-122) 1, mkFrame (-121) 2,
   mkFrame (-122) 10, mkFrame (-121) 11, mkFrame (-120) 3]

/-- The frames list `Game._add_frame` builds from `rollbackStream`. -/
def rollbackResult : List Frame :=
  [mkFrame (-123) 0, mkFrame (-122) 10, mkFrame (-121) 11, mkFrame (-120) 3]

/-! ## Wavedash detection (`StatsComputer.wavedash_compute`)

A player frame carries the fields the detector reads: the post-frame
action state, stocks remaining, the physical button bitmask
(`Buttons.Physical`: L = bit 6, R = bit 5) and the pre-frame joystick
coordinates. Action states of note: `KNEE_BEND = 24`,
`LAND_FALL_SPECIAL = 43`. The joystick coordinates are only stored into
the emitted record, never computed with, and are carried as an opaque
pair. -/

/-- One entry of `player.frames` as read by `wavedash_compute`. -/
structure PlayerFrame where
  postState : Int
  stocksRemaining : Nat
  physicalButtons : Nat
  joystick : Int × Int
deriving DecidableEq, Repr

/-- `WavedashData` as constructed by the detector (stat_types.py):
`trigger_frame = 0` and `waveland = True` until a jumpsquat frame is
found. The Python constructor additionally derives `angle`/`direction`
from `stick` by a total trigonometric classification; those two fields
are pure functions of `stick` and are not modelled. -/
structure WavedashData where
  frameIndex : Nat
  stocksRemaining : Nat
  triggerFrame : Nat
  stick : Int × Int
  airdodgeFrames : Nat
  waveland : Bool
deriving DecidableEq, Repr

/-- `Buttons.Physical.R in pressed() or Buttons.Physical.L in pressed()`:
bit 5 (R) or bit 6 (L) of the physical bitmask. -/
def lrPressed (buttons : Nat) : Bool :=
  buttons.testBit 5 || buttons.testBit 6

/-- The inner `for k in range(0, 5)` loop of `wavedash_compute`: scan
`frames[i - j - k]` for a `KNEE_BEND` post state; on the first hit set
`trigger_frame = k` and `waveland = False` and break. -/
def kneeBendScan (frames : List PlayerFrame) (base : Int) (w : WavedashData) :
    List Nat → Except PyErr WavedashData
  | [] => .ok w
  | k :: ks => do
    let past ← pyGet frames (base - k)
    if past.postState = 24 then
      .ok { w with triggerFrame := k, waveland := false }
    else
      kneeBendScan frames base w ks

/-- The `for j in range(0, 5)` loop of `wavedash_compute`: at each `j`
with an L or R press on `frames[i - j]`, build a fresh `WavedashData`
(overwriting `self._wavedash_state` — the loop has no `break`) and run
the jumpsquat scan from `i - j`. -/
def triggerScan (frames : List PlayerFrame) (i : Nat) (fi : PlayerFrame)
    (wd : Option WavedashData) : List Nat → Except PyErr (Option WavedashData)
  | [] => .ok wd
  | j :: js => do
    let past ← pyGet frames ((i : Int) - j)
    if lrPressed past.physicalButtons then
      let w0 : WavedashData := ⟨i, fi.stocksRemaining, 0, fi.joystick, j, true⟩
      let w1 ← kneeBendScan frames ((i : Int) - j) w0 [0, 1, 2, 3, 4]
      triggerScan frames i fi (some w1) js
    else
      triggerScan frames i fi wd js

/-- One iteration of the main loop of `wavedash_compute`: skip unless the
state just became `LAND_FALL_SPECIAL` (at `i = 0` the previous-state
local is unbound), run the trigger scan, and append
`self._wavedash_state` whenever it is not `None` — it is never reset
after an append. -/
def wavedashStep (frames : List PlayerFrame)
    (st : Option WavedashData × List WavedashData) (i : Nat) :
    Except PyErr (Option WavedashData × List WavedashData) := do
  let fi ← pyGet frames (i : Int)
  if fi.postState ≠ 43 then
    pure st
  else if i = 0 then
    .error .unboundLocal
  else do
    let prev ← pyGet frames ((i : Int) - 1)
    if prev.postState = 43 then
      pure st
    else do
      let wd ← triggerScan frames i fi st.1 [0, 1, 2, 3, 4]
      match wd with
      | some w => pure (some w, st.2 ++ [w])
      | none => pure (none, st.2)

/-- `StatsComputer.wavedash_compute` over one player's frames; the
rolling `self._wavedash_state` starts as `None` (set in
`StatsComputer.__init__`). -/
def wavedashCompute (frames : List PlayerFrame) :
    Except PyErr (List WavedashData) := do
  let (_, out) ← (List.range frames.length).foldlM (wavedashStep frames) (none, [])
  pure out

/-- A player frame sequence with a genuine wavedash landing at frame 5
(R held on frames 3–4, jumpsquat at frame 1) and a later press-less
`LAND_FALL_SPECIAL` transition at frame 9 (an up-B landing). -/
def wdTestFrames : List PlayerFrame :=
  [⟨14, 4, 0, (0, 0)⟩,
   ⟨24, 4, 0, (0, 0)⟩,
   ⟨25, 4, 0, (0, 0)⟩,
   ⟨236, 4, 32, (0, 0)⟩,
   ⟨236, 4, 32, (0, 0)⟩,
   ⟨43, 4, 0, (-90, -30)⟩,
   ⟨14, 4, 0, (0, 0)⟩,
   ⟨35, 4, 0, (0, 0)⟩,
   ⟨35, 4, 0, (0, 0)⟩,
   ⟨43, 4, 0, (0, 0)⟩]

/-! ## DI angle computation (`get_angle`, `get_post_di_angle`)

The float arithmetic of `stats/common.py` is modelled over `ℝ`. -/

/-- `math.atan2 y x`: the argument of the complex number `x + y·i`,
valued in (-π, π] with `atan2 0 0 = 0`. -/
noncomputable def atan2 (y x : ℝ) : ℝ := Complex.arg ⟨x, y⟩

/-- Python's float modulo `a % b`: `a - b * ⌊a / b⌋` (result has the sign
of `b`). -/
noncomputable def pyFmod (a b : ℝ) : ℝ := a - b * ⌊a / b⌋

/-- `get_angle` (stats/common.py): `(atan2(p.y, p.x) + tau) % tau`,
normalizing the angle into [0, 2π). -/
noncomputable def getAngle (p : ℝ × ℝ) : ℝ :=
  pyFmod (atan2 p.2 p.1 + 2 * Real.pi) (2 * Real.pi)

/-- `math.degrees`. -/
noncomputable def degreesOf (r : ℝ) : ℝ := r * 180 / Real.pi

/-- `get_post_di_angle` (stats/common.py), verbatim: note that
`angle_diff` is in radians while the `> 180` / `-180 <` guards compare it
against degree literals. -/
noncomputable def getPostDiAngle (joystick knockback : ℝ × ℝ) : ℝ :=
  let kbAngle := getAngle knockback
  let joystickAngle := getAngle joystick
  let angleDiff0 := kbAngle - joystickAngle
  let angleDiff := if angleDiff0 > 180 then angleDiff0 - 360 else angleDiff0
  let perpDist := Real.sin angleDiff * Real.sqrt (joystick.1 ^ 2 + joystick.2 ^ 2)
  let angleOffset0 := perpDist ^ 2 * 18
  let angleOffset1 := if angleOffset0 > 18 then 18 else angleOffset0
  let angleOffset := if -180 < angleDiff ∧ angleDiff < 0 then -angleOffset1 else angleOffset1
  degreesOf kbAngle - angleOffset

/-! # Theorems -/

theorem goSdi_append (p : Int) (u v : List Int) :
    goSdi p (u ++ v) = goSdi p u ++ goSdi (u.getLastD p) v := by
  induction u generalizing p with
  | nil => simp [goSdi, List.getLastD]
  | cons c t ih =>
    show sdiContrib p c ++ goSdi c (t ++ v)
        = (sdiContrib p c ++ goSdi c t) ++ goSdi ((c :: t).getLastD p) v
    rw [ih, List.getLastD_cons, List.append_assoc]

/-- C2: the claim says `SlippiVersion.__ge__` agrees with lexicographic
tuple comparison. It does not: the third disjunct of `__ge__` omits the
major-version equality test, so `(1,0,0) >= (2,0,0)` evaluates to `True`
while the lexicographic comparison modelled from the spec says `false`.
The code contradicts the documented total ordering (a code bug: it also
makes `__ge__` non-antisymmetric). -/
theorem version_ge_code_bug :
    slippiVersionGe ⟨1, 0, 0⟩ ⟨2, 0, 0⟩ = true
      ∧ specLexVersionGe ⟨1, 0, 0⟩ ⟨2, 0, 0⟩ = false := by
  exact ⟨rfl, rfl⟩

/-- C9: the claim says `get_player` resolves integer port identifiers and
raises `IdentifierError` for any unmatched identifier. In the code the
`match` subject is `identifier.upper()`, which raises `AttributeError`
for every `int`/`Port` identifier before any case is tried; string
resolution works (case-sensitively) and unmatched strings do raise
`IdentifierError`. -/
theorem get_player_code_bug :
    getPlayer demoPlayers (.iint 0) = .error .attributeError
      ∧ getPlayer demoPlayers (.istr "ABC#123") = .ok ⟨some "ABC#123", 0⟩
      ∧ getPlayer demoPlayers (.istr "abc#123") = .error .identifierError := by
  exact ⟨rfl, rfl, rfl⟩

/-- C7 counterexample: inserting a DeadZone region between two identical
UP regions changes the extracted SDI inputs from `[]` to `[UP]`, because
leaving the dead zone always counts as an SDI input. -/
theorem sdi_deadzone_insert_counterexample :
    findValidSdi [0, -1, 0] ≠ findValidSdi [0, 0] := by decide

/-- C7 amended: inserting a DeadZone region between two identical
non-deadzone regions inserts exactly one additional SDI input (the
repeated region itself) at that point of the extracted list, leaving the
rest unchanged. -/
theorem sdi_deadzone_insert_amended (a b : List Int) (x : Int) (hx : x ≠ -1) :
    ∃ q, findValidSdi (a ++ x :: x :: b) = findValidSdi (a ++ [x]) ++ q
      ∧ findValidSdi (a ++ x :: -1 :: x :: b) = findValidSdi (a ++ [x]) ++ x :: q := by
  have hxx : sdiContrib x x = [] := by
    unfold sdiContrib
    by_cases h : x = -1 <;> simp [h]
  have hxd : sdiContrib x (-1) = [] := by simp [sdiContrib]
  have hdx : sdiContrib (-1) x = [x] := by simp [sdiContrib, hx]
  refine ⟨goSdi x b, ?_, ?_⟩
  · cases a with
    | nil => simp [findValidSdi, goSdi, hxx]
    | cons h t =>
      have h1 : (h :: t) ++ x :: x :: b = h :: ((t ++ [x]) ++ (x :: b)) := by simp
      rw [h1, List.cons_append]
      show goSdi h ((t ++ [x]) ++ (x :: b)) = goSdi h (t ++ [x]) ++ goSdi x b
      rw [goSdi_append, List.getLastD_concat]
      show goSdi h (t ++ [x]) ++ (sdiContrib x x ++ goSdi x b) = _
      rw [hxx, List.nil_append]
  · cases a with
    | nil => simp [findValidSdi, goSdi, hxd, hdx]
    | cons h t =>
      have h1 : (h :: t) ++ x :: -1 :: x :: b = h :: ((t ++ [x]) ++ (-1 :: x :: b)) := by
        simp
      rw [h1, List.cons_append]
      show goSdi h ((t ++ [x]) ++ (-1 :: x :: b)) = goSdi h (t ++ [x]) ++ x :: goSdi x b
      rw [goSdi_append, List.getLastD_concat]
      show goSdi h (t ++ [x]) ++ (sdiContrib x (-1) ++ (sdiContrib (-1) x ++ goSdi x b)) = _
      rw [hxd, hdx, List.nil_append]
      rfl

/-- Witness for the amended C7 at `a = b = []`, `x = UP`. -/
theorem sdi_deadzone_insert_amended_witness :
    (0 : Int) ≠ -1
      ∧ ∃ q, findValidSdi ([] ++ 0 :: 0 :: []) = findValidSdi ([] ++ [0]) ++ q
          ∧ findValidSdi ([] ++ 0 :: -1 :: 0 :: []) = findValidSdi ([] ++ [0]) ++ 0 :: q :=
  ⟨by decide, sdi_deadzone_insert_amended [] [] 0 (by decide)⟩

/-- C3: the claim says a FramePost payload that ends before a
version-gated block parses into a partial record. For a payload ending
before `state_age` (27 bytes, the pre-v0.2.0 shape) the short-read
handler itself evaluates the never-assigned local `state_age`, so
`Post._parse` raises `UnboundLocalError` instead of returning the partial
record. -/
theorem post_parse_short_payload_code_bug :
    postParse shortPostPayload = .error .unboundLocal := by rfl

/-- C4: the claim says wavedash detection emits nothing for a
`LAND_FALL_SPECIAL` landing with no L/R press in the 5-frame window. On
`wdTestFrames` the landing at frame 5 is a real wavedash, but the
press-less landing at frame 9 *also* emits a record — a stale duplicate
of the frame-5 record — because `_wavedash_state` is never reset to
`None` after being appended. -/
theorem wavedash_stale_state_code_bug :
    wavedashCompute wdTestFrames
      = .ok [⟨5, 4, 2, (-90, -30), 2, false⟩, ⟨5, 4, 2, (-90, -30), 2, false⟩] := by
  rfl

/-- C5: the claim says a FrameStart event sets the frame's `start` field
and that `items` holds only Item records. The `_start_frame` handler in
parse.py instead appends the parsed `Frame.Start` record to
`current_frame.items` and never assigns `current_frame.start`: folding a
stream holding one FrameStart event yields a frame with `start = none`
and the FrameStart record inside `items`. -/
theorem frame_start_into_items_code_bug :
    foldFrameEvents [.startEvt (-123) [0, 0, 0, 5]]
      = .ok [⟨-123, [none, none, none, none], [.startRec ⟨5⟩], none, none⟩] := by
  rfl

/-- C6 counterexample: the claim says a frame index exceeding the next
expected index by exactly one is accepted without error. With one frame
stored (next expected index -122), adding a frame with index -121
(exceeding by exactly one) raises the missing-frames `ValueError`. -/
theorem frame_gap_counterexample :
    addFrame [mkFrame (-123) 0] (mkFrame (-121) 0) = .error .valueError := by rfl

theorem pySet_cases (l : List α) (i : Int) (a : α) :
    (∃ r, pySet l i a = .ok r ∧ r.length = l.length)
      ∨ pySet l i a = .error .indexError := by
  simp only [pySet]
  split <;> split
  · exact .inl ⟨_, rfl, by simp⟩
  · exact .inr rfl
  · exact .inl ⟨_, rfl, by simp⟩
  · exact .inr rfl

/-- C6 amended: `Game._add_frame` raises the missing-frames error exactly
when the received index is greater than the next expected index
(`current_count - 123`) by **one or more**, and appends exactly when the
index equals the next expected index. -/
theorem frame_gap_amended (fs : List Frame) (f : Frame) :
    (addFrame fs f = .error .valueError
        ↔ (fs.length : Int) < f.index - FIRST_FRAME_INDEX)
      ∧ (addFrame fs f = .ok (fs ++ [f])
        ↔ f.index - FIRST_FRAME_INDEX = (fs.length : Int)) := by
  simp only [addFrame]
  split_ifs with h1 h2
  · refine ⟨iff_of_false (by simp) ?_, iff_of_true rfl h1⟩
    rw [h1]
    exact lt_irrefl _
  · rcases pySet_cases fs (f.index - FIRST_FRAME_INDEX) f with ⟨r, hr, hlen⟩ | herr
    · rw [hr]
      refine ⟨iff_of_false (by simp) (not_lt.mpr h2.le), ?_⟩
      refine iff_of_false ?_ h1
      intro hok
      have hre : r = fs ++ [f] := by simpa using hok
      rw [hre] at hlen
      simp at hlen
    · rw [herr]
      exact ⟨iff_of_false (by simp) (not_lt.mpr h2.le), iff_of_false (by simp) h1⟩
  · refine ⟨iff_of_true rfl ?_, iff_of_false (by simp) h1⟩
    exact lt_of_le_of_ne (not_lt.mp h2) (fun h => h1 h.symm)

/-- C10: `End._parse` sets `lras_initiator` to the second payload byte
when that byte is below 4 and to `None` otherwise, and to `None` on a
one-byte payload — given a method byte in the `End.Method` domain. -/
theorem end_parse_lras (b0 b1 : Nat) (rest : Bytes)
    (hb : b0 = 0 ∨ b0 = 1 ∨ b0 = 2 ∨ b0 = 3 ∨ b0 = 7) :
    (endParse (b0 :: b1 :: rest)).map EndRec.lrasInitiator
        = .ok (if b1 < 4 then some b1 else none)
      ∧ (endParse [b0]).map EndRec.lrasInitiator = .ok none := by
  have h1 : readBE 1 (b0 :: b1 :: rest) = some (b0, b1 :: rest) := by
    simp [readBE]
  have h2 : readBE 1 (b1 :: rest) = some (b1, rest) := by
    simp [readBE]
  have h3 : readBE 1 ([b0] : Bytes) = some (b0, []) := by
    simp [readBE]
  have h4 : readBE 1 ([] : Bytes) = none := by
    simp [readBE]
  constructor
  · by_cases hb1 : b1 < 4 <;>
      simp [endParse, rd, h1, h2, Bind.bind, Except.bind, Except.map,
        Pure.pure, Except.pure, hb, hb1]
  · simp [endParse, rd, h3, h4, Bind.bind, Except.bind, Except.map,
      Pure.pure, Except.pure, hb]

/-- Witness for C10 at a two-byte payload `[2, 1]` (method `GAME`,
LRAS byte 1) and the one-byte payload `[2]`. -/
theorem end_parse_lras_witness :
    ((2 : Nat) = 0 ∨ (2 : Nat) = 1 ∨ (2 : Nat) = 2 ∨ (2 : Nat) = 3 ∨ (2 : Nat) = 7)
      ∧ ((endParse (2 :: 1 :: [])).map EndRec.lrasInitiator
            = .ok (if 1 < 4 then some 1 else none)
          ∧ (endParse [2]).map EndRec.lrasInitiator = .ok none) :=
  ⟨by decide, end_parse_lras 2 1 [] (by decide)⟩

theorem addFrame_ok_cases (fs : List Frame) (e : Frame) (fs' : List Frame)
    (hok : addFrame fs e = .ok fs') (hge : FIRST_FRAME_INDEX ≤ e.index) :
    (e.index - FIRST_FRAME_INDEX = (fs.length : Int) ∧ fs' = fs ++ [e])
      ∨ ((e.index - FIRST_FRAME_INDEX).toNat < fs.length
          ∧ fs' = fs.set (e.index - FIRST_FRAME_INDEX).toNat e) := by
  have hnn : ¬(e.index - FIRST_FRAME_INDEX < 0) := by omega
  simp only [addFrame, pySet, if_neg hnn] at hok
  split_ifs at hok with h1 h2 h3
  · exact .inl ⟨h1, (by simpa using hok.symm)⟩
  · refine .inr ⟨h3.2, ?_⟩
    simpa using hok.symm

theorem goodState_nil : goodState [] [] := by
  refine ⟨?_, ?_, ?_⟩
  · intro i h
    simp at h
  · intro i h
    simp at h
  · intro e he
    simp at he

theorem getElem_append_last (l : List Frame) (a : Frame)
    (h : l.length < (l ++ [a]).length) :
    (l ++ [a])[l.length] = a := by
  rw [List.getElem_append_right (le_refl _)]
  simp

theorem goodState_step (es fs : List Frame) (e : Frame) (fs' : List Frame)
    (hok : addFrame fs e = .ok fs') (hge : FIRST_FRAME_INDEX ≤ e.index)
    (hgs : goodState es fs) : goodState (es ++ [e]) fs' := by
  obtain ⟨hinv, hcan, hcov⟩ := hgs
  rcases addFrame_ok_cases fs e fs' hok hge with ⟨hidx, rfl⟩ | ⟨hlt, rfl⟩
  · refine ⟨?_, ?_, ?_⟩
    · intro i h
      have hlen : i < fs.length + 1 := by simpa using h
      rcases Nat.lt_or_ge i fs.length with hi | hi
      · rw [List.getElem_append_left hi]
        exact hinv i hi
      · have hie : i = fs.length := by omega
        subst hie
        simp only [getElem_append_last]
        omega
    · intro i h
      have hlen : i < fs.length + 1 := by simpa using h
      rw [List.filter_append]
      rcases Nat.lt_or_ge i fs.length with hi | hi
      · have hne2 : (e.index == FIRST_FRAME_INDEX + (i : Int)) = false := by
          rw [beq_eq_false_iff_ne]
          omega
        have hfe : [e].filter (fun x => x.index == FIRST_FRAME_INDEX + (i : Int)) = [] := by
          simp [List.filter_singleton, hne2]
        rw [hfe, List.append_nil, List.getElem_append_left hi]
        exact hcan i hi
      · have hie : i = fs.length := by omega
        subst hie
        have heq : (e.index == FIRST_FRAME_INDEX + (fs.length : Int)) = true := by
          rw [beq_iff_eq]
          omega
        have hfe : [e].filter (fun x => x.index == FIRST_FRAME_INDEX + (fs.length : Int))
            = [e] := by
          simp [List.filter_singleton, heq]
        rw [hfe, List.getLast?_concat]
        simp only [getElem_append_last]
    · intro x hx
      rcases List.mem_append.mp hx with hx | hx
      · have := hcov x hx
        simp only [List.length_append, List.length_cons, List.length_nil]
        omega
      · have hxe : x = e := by simpa using hx
        subst hxe
        simp only [List.length_append, List.length_cons, List.length_nil]
        omega
  · refine ⟨?_, ?_, ?_⟩
    · intro i h
      have hlen : i < fs.length := by simpa using h
      rw [List.getElem_set]
      split_ifs with hii
      · omega
      · exact hinv i hlen
    · intro i h
      have hlen : i < fs.length := by simpa using h
      rw [List.filter_append, List.getElem_set]
      split_ifs with hii
      · have heq : (e.index == FIRST_FRAME_INDEX + (i : Int)) = true := by
          rw [beq_iff_eq]
          omega
        have hfe : [e].filter (fun x => x.index == FIRST_FRAME_INDEX + (i : Int)) = [e] := by
          simp [List.filter_singleton, heq]
        rw [hfe, List.getLast?_concat]
      · have hne2 : (e.index == FIRST_FRAME_INDEX + (i : Int)) = false := by
          rw [beq_eq_false_iff_ne]
          omega
        have hfe : [e].filter (fun x => x.index == FIRST_FRAME_INDEX + (i : Int)) = [] := by
          simp [List.filter_singleton, hne2]
        rw [hfe, List.append_nil]
        exact hcan i hlen
    · intro x hx
      rcases List.mem_append.mp hx with hx | hx
      · have := hcov x hx
        simpa using this
      · have hxe : x = e := by simpa using hx
        subst hxe
        simpa using hlt

theorem foldlM_goodState (es : List Frame) :
    ∀ (pre acc fin : List Frame),
      (∀ e ∈ es, FIRST_FRAME_INDEX ≤ e.index) →
      goodState pre acc →
      es.foldlM addFrame acc = Except.ok fin →
      goodState (pre ++ es) fin := by
  induction es with
  | nil =>
    intro pre acc fin _ hgs hfold
    simp only [List.foldlM_nil] at hfold
    have hacc : acc = fin := by simpa [pure, Except.pure] using hfold
    subst hacc
    simpa using hgs
  | cons e es ih =>
    intro pre acc fin hidx hgs hfold
    rw [List.foldlM_cons] at hfold
    cases hadd : addFrame acc e with
    | error err =>
      rw [hadd] at hfold
      simp [Bind.bind, Except.bind] at hfold
    | ok acc2 =>
      rw [hadd] at hfold
      simp only [Bind.bind, Except.bind] at hfold
      have hgs2 := goodState_step pre acc e acc2 hadd (hidx e (by simp)) hgs
      have := ih (pre ++ [e]) acc2 fin (fun x hx => hidx x (by simp [hx])) hgs2 hfold
      simpa [List.append_assoc] using this

theorem filter_eq_singleton (l : List Frame) (p : Frame → Bool) :
    ∀ (i : Nat) (h : i < l.length),
      (∀ j (hj : j < l.length), (p (l[j]) = true ↔ j = i)) →
      l.filter p = [l[i]] := by
  induction l with
  | nil =>
    intro i h
    simp at h
  | cons a t ih =>
    intro i h hp
    cases i with
    | zero =>
      have hpa : p a = true := by
        have := (hp 0 (by simp)).mpr rfl
        simpa using this
      have ht : t.filter p = [] := by
        rw [List.filter_eq_nil_iff]
        intro x hx
        obtain ⟨j, hj, hxj⟩ := List.mem_iff_getElem.mp hx
        subst hxj
        have h2 := hp (j + 1) (by simp only [List.length_cons]; omega)
        simp only [List.getElem_cons_succ] at h2
        simp [h2]
      simp [List.filter_cons, hpa, ht]
    | succ i2 =>
      have hpa : p a = false := by
        have h0 := hp 0 (by simp)
        simp only [List.getElem_cons_zero] at h0
        rw [Bool.eq_false_iff]
        intro hcontra
        exact absurd (h0.mp hcontra) (by omega)
      have hp2 : ∀ j (hj : j < t.length), (p (t[j]) = true ↔ j = i2) := by
        intro j hj
        have h2 := hp (j + 1) (by simp only [List.length_cons]; omega)
        simp only [List.getElem_cons_succ] at h2
        rw [h2]
        omega
      have ht := ih i2 (by simp only [List.length_cons] at h; omega) hp2
      simpa [List.filter_cons, hpa] using ht

/-- C1: rollback replacement. For any stream of reconstructed frames
whose indices stay at or above -123, if `Game._add_frame` accepts the
whole stream and frame index `k` appears exactly twice — with differing
payloads — then the final frames list contains exactly one frame with
index `k`, and it is the second arrival: the slot `k - (-123)` was
replaced in place rather than appended. -/
theorem rollback_second_payload (es fs : List Frame) (k : Int) (e1 e2 : Frame)
    (hidx : ∀ e ∈ es, FIRST_FRAME_INDEX ≤ e.index)
    (hfold : foldAddFrames es = .ok fs)
    (htwice : es.filter (fun e => e.index == k) = [e1, e2])
    (_hne : e1 ≠ e2) :
    fs.filter (fun e => e.index == k) = [e2] := by
  have hgs : goodState es fs := by
    have := foldlM_goodState es [] [] fs hidx goodState_nil hfold
    simpa using this
  obtain ⟨hinv, hcan, hcov⟩ := hgs
  have hmem : e2 ∈ es.filter (fun e => e.index == k) := by
    rw [htwice]
    simp
  have he2es : e2 ∈ es := List.mem_of_mem_filter hmem
  have he2k : e2.index = k := by
    have := List.of_mem_filter hmem
    simpa using this
  have hklb : FIRST_FRAME_INDEX ≤ k := he2k ▸ hidx e2 he2es
  have hn : (k - FIRST_FRAME_INDEX).toNat < fs.length := by
    have := hcov e2 he2es
    rw [he2k] at this
    exact this
  have hkn : k = FIRST_FRAME_INDEX + ((k - FIRST_FRAME_INDEX).toNat : Int) := by
    omega
  have hslot : fs[(k - FIRST_FRAME_INDEX).toNat] = e2 := by
    have hc := hcan (k - FIRST_FRAME_INDEX).toNat hn
    rw [← hkn, htwice] at hc
    simpa using hc.symm
  have hp : ∀ j (hj : j < fs.length),
      ((fun e => e.index == k) (fs[j]) = true ↔ j = (k - FIRST_FRAME_INDEX).toNat) := by
    intro j hj
    have hidxj := hinv j hj
    constructor
    · intro hpj
      have hjk : (fs[j]).index = k := by simpa using hpj
      omega
    · intro hje
      subst hje
      have hik : (fs[(k - FIRST_FRAME_INDEX).toNat]).index = k := by
        rw [hslot]
        exact he2k
      simpa using hik
  have hsingle := filter_eq_singleton fs (fun e => e.index == k)
      (k - FIRST_FRAME_INDEX).toNat hn hp
  rw [hslot] at hsingle
  exact hsingle

/-- Witness for C1 on the rollback seed scenario (indices
-123, -122, -121, -122, -121, -120; index -122 arrives twice with
differing payloads; the final list holds the second arrival only). -/
theorem rollback_second_payload_witness :
    (∀ e ∈ rollbackStream, FIRST_FRAME_INDEX ≤ e.index)
      ∧ foldAddFrames rollbackStream = .ok rollbackResult
      ∧ rollbackStream.filter (fun e => e.index == -122)
          = [mkFrame (-122) 1, mkFrame (-122) 10]
      ∧ mkFrame (-122) 1 ≠ mkFrame (-122) 10
      ∧ rollbackResult.filter (fun e => e.index == -122) = [mkFrame (-122) 10] := by
  refine ⟨by decide, by rfl, by rfl, by decide, ?_⟩
  exact rollback_second_payload rollbackStream rollbackResult (-122)
    (mkFrame (-122) 1) (mkFrame (-122) 10) (by decide) (by rfl) (by rfl) (by decide)

/-! ### DI-angle lemmas (C8) -/

theorem pyFmod_bounds (a b : ℝ) (hb : 0 < b) : 0 ≤ pyFmod a b ∧ pyFmod a b < b := by
  have hbne : b ≠ 0 := ne_of_gt hb
  have key : pyFmod a b = b * Int.fract (a / b) := by
    have hfr : Int.fract (a / b) = a / b - ⌊a / b⌋ := rfl
    rw [hfr, mul_sub, mul_comm b (a / b), div_mul_cancel₀ a hbne]
    rfl
  constructor
  · rw [key]
    exact mul_nonneg hb.le (Int.fract_nonneg _)
  · rw [key]
    calc b * Int.fract (a / b) < b * 1 :=
          mul_lt_mul_of_pos_left (Int.fract_lt_one _) hb
      _ = b := mul_one b

theorem getAngle_bounds (p : ℝ × ℝ) : 0 ≤ getAngle p ∧ getAngle p < 2 * Real.pi :=
  pyFmod_bounds _ _ Real.two_pi_pos

theorem getAngle_sub_arg (p : ℝ × ℝ) :
    ∃ n : ℤ, getAngle p = atan2 p.2 p.1 + n * (2 * Real.pi) := by
  refine ⟨1 - ⌊(atan2 p.2 p.1 + 2 * Real.pi) / (2 * Real.pi)⌋, ?_⟩
  unfold getAngle pyFmod
  push_cast
  ring

theorem sin_getAngle_sub (j k : ℝ × ℝ) :
    Real.sin (getAngle k - getAngle j)
      = Real.sin (atan2 k.2 k.1 - atan2 j.2 j.1) := by
  obtain ⟨m, hm⟩ := getAngle_sub_arg k
  obtain ⟨n, hn⟩ := getAngle_sub_arg j
  rw [hm, hn]
  have heq : atan2 k.2 k.1 + m * (2 * Real.pi) - (atan2 j.2 j.1 + n * (2 * Real.pi))
      = atan2 k.2 k.1 - atan2 j.2 j.1 + (m - n : ℤ) * (2 * Real.pi) := by
    push_cast
    ring
  rw [heq, Real.sin_add_int_mul_two_pi]

theorem complex_abs_mk (x y : ℝ) :
    Complex.abs ⟨x, y⟩ = Real.sqrt (x ^ 2 + y ^ 2) := by
  have hre : (⟨x, y⟩ : ℂ).re = x := rfl
  have him : (⟨x, y⟩ : ℂ).im = y := rfl
  rw [Complex.abs_apply, Complex.normSq_apply, hre, him]
  congr 1
  ring

theorem perp_eq_cross (jx jy kx ky : ℝ) (hk : ¬(kx = 0 ∧ ky = 0)) :
    Real.sin (atan2 ky kx - atan2 jy jx) * Real.sqrt (jx ^ 2 + jy ^ 2)
      = (ky * jx - kx * jy) / Real.sqrt (kx ^ 2 + ky ^ 2) := by
  have hSk : (0 : ℝ) < Real.sqrt (kx ^ 2 + ky ^ 2) := by
    apply Real.sqrt_pos.mpr
    rcases not_and_or.mp hk with h1 | h1 <;> positivity
  by_cases hj : jx = 0 ∧ jy = 0
  · obtain ⟨h1, h2⟩ := hj
    rw [h1, h2]
    simp
  · have hSj : (0 : ℝ) < Real.sqrt (jx ^ 2 + jy ^ 2) := by
      apply Real.sqrt_pos.mpr
      rcases not_and_or.mp hj with h1 | h1 <;> positivity
    have hzj : (⟨jx, jy⟩ : ℂ) ≠ 0 := by
      intro hc
      rw [Complex.ext_iff] at hc
      exact hj ⟨hc.1, hc.2⟩
    have hzk : (⟨kx, ky⟩ : ℂ) ≠ 0 := by
      intro hc
      rw [Complex.ext_iff] at hc
      exact hk ⟨hc.1, hc.2⟩
    have hrej : (⟨jx, jy⟩ : ℂ).re = jx := rfl
    have himj : (⟨jx, jy⟩ : ℂ).im = jy := rfl
    have hrek : (⟨kx, ky⟩ : ℂ).re = kx := rfl
    have himk : (⟨kx, ky⟩ : ℂ).im = ky := rfl
    unfold atan2
    rw [Real.sin_sub, Complex.sin_arg, Complex.sin_arg, Complex.cos_arg hzj,
      Complex.cos_arg hzk, hrej, himj, hrek, himk, complex_abs_mk, complex_abs_mk]
    field_simp
    ring

theorem cross_zero_iff (jx jy kx ky : ℝ) (hk : ¬(kx = 0 ∧ ky = 0)) :
    ky * jx - kx * jy = 0
      ↔ ((jx = 0 ∧ jy = 0) ∨ ∃ c, c ≠ 0 ∧ jx = c * kx ∧ jy = c * ky) := by
  constructor
  · intro h
    by_cases hj : jx = 0 ∧ jy = 0
    · exact .inl hj
    · refine .inr ?_
      rcases not_and_or.mp hk with hkx | hky
      · refine ⟨jx / kx, ?_, (div_mul_cancel₀ jx hkx).symm, ?_⟩
        · intro hc
          have hjx : jx = 0 := by
            rcases div_eq_zero_iff.mp hc with h1 | h1
            · exact h1
            · exact absurd h1 hkx
          have hjy : jy = 0 := by
            rw [hjx] at h
            have hky0 : kx * jy = 0 := by linarith
            rcases mul_eq_zero.mp hky0 with h1 | h1
            · exact absurd h1 hkx
            · exact h1
          exact hj ⟨hjx, hjy⟩
        · field_simp
          nlinarith [h]
      · refine ⟨jy / ky, ?_, ?_, (div_mul_cancel₀ jy hky).symm⟩
        · intro hc
          have hjy : jy = 0 := by
            rcases div_eq_zero_iff.mp hc with h1 | h1
            · exact h1
            · exact absurd h1 hky
          have hjx : jx = 0 := by
            rw [hjy] at h
            have hkx0 : ky * jx = 0 := by linarith
            rcases mul_eq_zero.mp hkx0 with h1 | h1
            · exact absurd h1 hky
            · exact h1
          exact hj ⟨hjx, hjy⟩
        · field_simp
          nlinarith [h]
  · rintro (⟨h1, h2⟩ | ⟨c, _, h1, h2⟩) <;> rw [h1, h2] <;> ring

/-- C8: for every joystick position and nonzero knockback vector, the
post-DI angle computed by `get_post_di_angle` differs from the pre-DI
knockback angle (`degrees(get_angle(kb))`) by at most 18 degrees, and
equals it exactly when the effective stick is at the origin or parallel
to the knockback vector. -/
theorem post_di_angle_bound_and_parallel (j k : ℝ × ℝ)
    (hk : ¬(k.1 = 0 ∧ k.2 = 0)) :
    |getPostDiAngle j k - degreesOf (getAngle k)| ≤ 18
      ∧ (getPostDiAngle j k = degreesOf (getAngle k)
          ↔ ((j.1 = 0 ∧ j.2 = 0) ∨ ∃ c, c ≠ 0 ∧ j.1 = c * k.1 ∧ j.2 = c * k.2)) := by
  have hSk : (0 : ℝ) < Real.sqrt (k.1 ^ 2 + k.2 ^ 2) := by
    apply Real.sqrt_pos.mpr
    rcases not_and_or.mp hk with h1 | h1 <;> positivity
  have hd180 : (2 : ℝ) * Real.pi < 180 := by
    nlinarith [Real.pi_lt_d2]
  obtain ⟨hk0, hk2⟩ := getAngle_bounds k
  obtain ⟨hj0, hj2⟩ := getAngle_bounds j
  unfold getPostDiAngle
  dsimp only
  set Ak := getAngle k with hAk
  set Aj := getAngle j with hAj
  have hnot180 : ¬(Ak - Aj > 180) := by
    push_neg
    linarith
  have hgt : (-180 : ℝ) < Ak - Aj := by linarith
  rw [if_neg hnot180]
  simp only [and_iff_right hgt]
  set P := Real.sin (Ak - Aj) * Real.sqrt (j.1 ^ 2 + j.2 ^ 2) with hPdef
  set O1 := if P ^ 2 * 18 > 18 then (18 : ℝ) else P ^ 2 * 18 with hO1
  have hO1nn : 0 ≤ O1 := by
    rw [hO1]
    split_ifs with h
    · norm_num
    · positivity
  have hO1le : O1 ≤ 18 := by
    rw [hO1]
    split_ifs with h
    · exact le_refl _
    · exact le_of_not_lt h
  have hO1zero : O1 = 0 ↔ P = 0 := by
    rw [hO1]
    split_ifs with h
    · refine iff_of_false (by norm_num) ?_
      intro hP0
      rw [hP0] at h
      norm_num at h
    · constructor
      · intro h0
        have hP2 : P ^ 2 = 0 := by nlinarith
        exact pow_eq_zero_iff (by norm_num) |>.mp hP2
      · intro hP0
        rw [hP0]
        norm_num
  have hcross : P = (k.2 * j.1 - k.1 * j.2) / Real.sqrt (k.1 ^ 2 + k.2 ^ 2) := by
    rw [hPdef, hAk, hAj, sin_getAngle_sub j k, perp_eq_cross j.1 j.2 k.1 k.2 hk]
  constructor
  · have harith : degreesOf Ak - (if Ak - Aj < 0 then -O1 else O1) - degreesOf Ak
        = -(if Ak - Aj < 0 then -O1 else O1) := by
      ring
    rw [harith, abs_neg]
    split_ifs with h
    · rw [abs_neg, abs_of_nonneg hO1nn]
      exact hO1le
    · rw [abs_of_nonneg hO1nn]
      exact hO1le
  · rw [sub_eq_self]
    have hoff2 : (if Ak - Aj < 0 then -O1 else O1) = 0 ↔ O1 = 0 := by
      split_ifs with h
      · exact neg_eq_zero
      · exact Iff.rfl
    rw [hoff2, hO1zero, hcross]
    have hdiv : (k.2 * j.1 - k.1 * j.2) / Real.sqrt (k.1 ^ 2 + k.2 ^ 2) = 0
        ↔ k.2 * j.1 - k.1 * j.2 = 0 := by
      constructor
      · intro h
        rcases div_eq_zero_iff.mp h with h1 | h1
        · exact h1
        · exact absurd h1 (ne_of_gt hSk)
      · intro h
        rw [h, zero_div]
    rw [hdiv]
    exact cross_zero_iff j.1 j.2 k.1 k.2 hk

/-- Witness for C8 at stick (2, 4) and knockback (1, 2) (nonzero,
parallel). -/
theorem post_di_angle_witness :
    ¬(((1 : ℝ), (2 : ℝ)).1 = 0 ∧ ((1 : ℝ), (2 : ℝ)).2 = 0)
      ∧ (|getPostDiAngle (2, 4) (1, 2) - degreesOf (getAngle (1, 2))| ≤ 18
          ∧ (getPostDiAngle (2, 4) (1, 2) = degreesOf (getAngle (1, 2))
              ↔ ((((2 : ℝ), (4 : ℝ)).1 = 0 ∧ ((2 : ℝ), (4 : ℝ)).2 = 0)
                  ∨ ∃ c, c ≠ 0 ∧ ((2 : ℝ), (4 : ℝ)).1 = c * ((1 : ℝ), (2 : ℝ)).1
                      ∧ ((2 : ℝ), (4 : ℝ)).2 = c * ((1 : ℝ), (2 : ℝ)).2))) :=
  ⟨by norm_num, post_di_angle_bound_and_parallel (2, 4) (1, 2) (by norm_num)⟩

end SlippiStats

